import Mathlib

/-!
Verification development for the qiskit-nature documentation repository.

The repository consists of a README and two tutorial notebooks
(`docs/tutorials/03_ground_state_solvers.ipynb` and the electronic-structure
tutorial) whose code calls an external quantum-computing framework and whose
recorded cell outputs contain the data the prose talks about.  This file
embeds, faithfully to the source:

  * the qubit operators recorded in the electronic-structure tutorial's cell
    outputs (the Jordan-Wigner operator on 4 qubits and the parity-mapped,
    two-qubit-reduced operator on 2 qubits), together with an exact spectral
    analysis of both;
  * the energies and occupations recorded in the ground-state tutorial's cell
    outputs;
  * the example programs themselves (README example, electronic-structure
    tutorial, ground-state tutorial) as abstract syntax, with a sequential
    environment semantics, used for the dataflow / ordering / error-handling
    claims.

All recorded decimal coefficients are exact multiples of `1e-18` (real parts)
and `1e-33` (imaginary parts), so they are stored as the integers obtained by
scaling with `10^18` resp. `10^33`; every stored integer is commented with the
decimal literal exactly as printed in the notebook.  Real-valued matrices are
recovered by dividing by the scale.
-/
/- ## Pauli terms and the recorded qubit operators

The electronic-structure tutorial records, in its cell outputs, two qubit
operators obtained from `QubitConverter.convert` on the H2 second-quantized
Hamiltonian: one for `JordanWignerMapper` (15 Pauli terms on 4 qubits) and one
for `ParityMapper` with `two_qubit_reduction=True` (5 Pauli terms on 2
qubits).  We embed them term by term. -/
inductive Pauli where
  | I | X | Y | Z
deriving DecidableEq

/-- One summand of a recorded qubit operator: a complex coefficient — stored
as `re * 10^18` and `im * 10^33`, both exact integers for every printed
value — times a tensor product of Pauli operators, most significant qubit
first. -/
structure PauliTerm where
  reE18 : ℤ
  imE33 : ℤ
  paulis : List Pauli
deriving DecidableEq

/-- The Jordan-Wigner qubit operator for H2/STO-3G recorded in cell output 4
of the electronic-structure tutorial.  All recorded coefficients are real. -/
def jwTerms : List PauliTerm :=
  [ ⟨-810547980537326400, 0, [.I, .I, .I, .I]⟩,   -- -0.8105479805373264 * IIII
    ⟨-225753492224024630, 0, [.Z, .I, .I, .I]⟩,   -- -0.22575349222402463 * ZIII
    ⟨172183932619155660, 0, [.I, .Z, .I, .I]⟩,    -- +0.17218393261915566 * IZII
    ⟨120912632617766300, 0, [.Z, .Z, .I, .I]⟩,    -- +0.1209126326177663 * ZZII
    ⟨-225753492224024660, 0, [.I, .I, .Z, .I]⟩,   -- -0.22575349222402466 * IIZI
    ⟨174643430683004530, 0, [.Z, .I, .Z, .I]⟩,    -- +0.17464343068300453 * ZIZI
    ⟨166145432563824140, 0, [.I, .Z, .Z, .I]⟩,    -- +0.16614543256382414 * IZZI
    ⟨172183932619155660, 0, [.I, .I, .I, .Z]⟩,    -- +0.17218393261915566 * IIIZ
    ⟨166145432563824140, 0, [.Z, .I, .I, .Z]⟩,    -- +0.16614543256382414 * ZIIZ
    ⟨168927538700879120, 0, [.I, .Z, .I, .Z]⟩,    -- +0.16892753870087912 * IZIZ
    ⟨120912632617766300, 0, [.I, .I, .Z, .Z]⟩,    -- +0.1209126326177663 * IIZZ
    ⟨45232799946057854, 0, [.X, .X, .X, .X]⟩,     -- +0.045232799946057854 * XXXX
    ⟨45232799946057854, 0, [.Y, .Y, .X, .X]⟩,     -- +0.045232799946057854 * YYXX
    ⟨45232799946057854, 0, [.X, .X, .Y, .Y]⟩,     -- +0.045232799946057854 * XXYY
    ⟨45232799946057854, 0, [.Y, .Y, .Y, .Y]⟩ ]    -- +0.045232799946057854 * YYYY

/-- The parity-mapped, two-qubit-reduced operator recorded in cell output 5 of
the electronic-structure tutorial.  Three coefficients are recorded with tiny
spurious imaginary parts (floating-point round-off of the external
framework); we embed them exactly as printed. -/
def parityTerms : List PauliTerm :=
  [ ⟨-1052373245772858500, 55511151231257830, [.I, .I]⟩,
      -- (-1.0523732457728585+5.551115123125783e-17j) * II
    ⟨-397937424843180200, 13877787807814457, [.Z, .I]⟩,
      -- (-0.3979374248431802+1.3877787807814457e-17j) * ZI
    ⟨397937424843180200, 0, [.I, .Z]⟩,            -- +0.3979374248431802 * IZ
    ⟨-11280104256235380, 0, [.Z, .Z]⟩,            -- -0.01128010425623538 * ZZ
    ⟨180931199784231420, 3469446951953614, [.X, .X]⟩ ]
      -- (0.18093119978423142+3.469446951953614e-18j) * XX

/-- Entry `⟨r|P|c⟩` of a single-qubit Pauli matrix, as a Gaussian integer
(`re`, `im`, both in `{-1, 0, 1}`); `r`, `c` are the row and column basis
bits. -/
def pauliEntry : Pauli → Bool → Bool → ℤ × ℤ
  | .I, r, c => if r = c then (1, 0) else (0, 0)
  | .X, r, c => if r = c then (0, 0) else (1, 0)
  | .Y, r, c => if r = c then (0, 0) else if c then (0, -1) else (0, 1)
  | .Z, r, c => if r = c then (if c then (-1, 0) else (1, 0)) else (0, 0)

/-- Gaussian-integer multiplication: `(a + b i) * (c + d i)`. -/
def gmul (x y : ℤ × ℤ) : ℤ × ℤ :=
  (x.1 * y.1 - x.2 * y.2, x.1 * y.2 + x.2 * y.1)

/-- The bits of basis index `x` on `n` qubits, most significant first,
matching the printed Pauli-string convention. -/
def bitsMSB (n x : Nat) : List Bool :=
  (List.range n).map (fun k => x / 2 ^ (n - 1 - k) % 2 = 1)

/-- Entry `⟨r|P₁⊗…⊗Pₙ|c⟩` of a Pauli string (a Gaussian-integer phase in
`{0, ±1, ±i}`). -/
def stringEntry (ps : List Pauli) (n r c : Nat) : ℤ × ℤ :=
  (ps.zip ((bitsMSB n r).zip (bitsMSB n c))).foldl
    (fun acc t => gmul acc (pauliEntry t.1 t.2.1 t.2.2)) (1, 0)

/-- `Σ_t re(t) * re(⟨r|string t|c⟩)`, in units of `1e-18`. -/
def opEntryReA (terms : List PauliTerm) (n r c : Nat) : ℤ :=
  terms.foldl (fun acc t => acc + t.reE18 * (stringEntry t.paulis n r c).1) 0

/-- `Σ_t im(t) * im(⟨r|string t|c⟩)`, in units of `1e-33`. -/
def opEntryReB (terms : List PauliTerm) (n r c : Nat) : ℤ :=
  terms.foldl (fun acc t => acc + t.imE33 * (stringEntry t.paulis n r c).2) 0

/-- `Σ_t re(t) * im(⟨r|string t|c⟩)`, in units of `1e-18`. -/
def opEntryImA (terms : List PauliTerm) (n r c : Nat) : ℤ :=
  terms.foldl (fun acc t => acc + t.reE18 * (stringEntry t.paulis n r c).2) 0

/-- `Σ_t im(t) * re(⟨r|string t|c⟩)`, in units of `1e-33`. -/
def opEntryImB (terms : List PauliTerm) (n r c : Nat) : ℤ :=
  terms.foldl (fun acc t => acc + t.imE33 * (stringEntry t.paulis n r c).1) 0

/-- Real part of the matrix entry of a recorded operator, as an exact
rational: `re = A/10^18 - B/10^33`. -/
def opEntryRe (terms : List PauliTerm) (n r c : Nat) : ℚ :=
  (opEntryReA terms n r c : ℚ) / 10 ^ 18 - (opEntryReB terms n r c : ℚ) / 10 ^ 33

/-- Imaginary part of the matrix entry of a recorded operator:
`im = A'/10^18 + B'/10^33`. -/
def opEntryIm (terms : List PauliTerm) (n r c : Nat) : ℚ :=
  (opEntryImA terms n r c : ℚ) / 10 ^ 18 + (opEntryImB terms n r c : ℚ) / 10 ^ 33

/-- The matrix of the recorded Jordan-Wigner operator in the 16-dimensional
computational basis (its imaginary part vanishes identically, see
`jwIm_zero`). -/
def jwMatrix (r c : Fin 16) : ℚ := opEntryRe jwTerms 4 r c

/-- Real part of the matrix of the recorded parity-reduced operator in the
4-dimensional computational basis.  (The recorded coefficients carry spurious
imaginary parts of order `1e-17`; the operator whose spectrum the tutorial
reports is its Hermitian — here: real — part.) -/
def parityMatrix (r c : Fin 4) : ℚ := opEntryRe parityTerms 2 r c

/-- Diagonal of `jwMatrix`, times `10^18`. -/
def jwDiagZ : Fin 16 → ℤ :=
 ![160, -1256339073003250280, -471896007281140460, -1244584549813325700,
   -1256339073003250280, -1836967991202984240, -1063653350029094340,
   -1160631737757763100, -471896007281140520, -1063653350029094400,
   -245218291830263020, -353325104107151700, -1244584549813325760,
   -1160631737757763160, -353325104107151700, 214278238419476100]

/-- Couplings of `jwMatrix`: basis state `x` couples only to its bitwise
complement `15 - x`, and only the pairs `{5,10}` and `{6,9}` have a nonzero
coupling `4 * 0.045232799946057854`; times `10^18`. -/
def jwCouplingZ : Fin 16 → ℤ :=
 ![0, 0, 0, 0, 0, 180931199784231416, 180931199784231416, 0,
   0, 180931199784231416, 180931199784231416, 0, 0, 0, 0, 0]

/-- Diagonal of `parityMatrix`, times `10^18`. -/
def parityDiagZ : Fin 4 → ℤ :=
 ![-1063653350029093880, -1836967991202983520, -245218291830262720,
   -1063653350029093880]

/-- Anti-diagonal coupling of `parityMatrix` (the recorded `XX` term), times
`10^18`. -/
def parityCouplingZ : Fin 4 → ℤ :=
 ![180931199784231420, 180931199784231420, 180931199784231420,
   180931199784231420]

/-- Index of the bitwise complement, pairing the two halves of a 2×2 block. -/
def pair16 (r : Fin 16) : Fin 16 := ⟨15 - r, by omega⟩

/-- Index of the bitwise complement on 2 qubits. -/
def pair4 (r : Fin 4) : Fin 4 := ⟨3 - r, by omega⟩

/- ## Spectral analysis of the recorded operators

The claims compare the minimum eigenvalues of the two recorded operators.
Both matrices decompose into 2×2 blocks pairing each basis state with its
bitwise complement, so the whole spectrum is accessible exactly. -/
/-- `μ` is an eigenvalue of the rational matrix `M`, viewed as an operator on
real `m`-dimensional space. -/
def IsEigenvalue {m : ℕ} (M : Fin m → Fin m → ℚ) (μ : ℝ) : Prop :=
  ∃ v : Fin m → ℝ, v ≠ 0 ∧ ∀ r, (∑ c, (M r c : ℝ) * v c) = μ * v r

/-- `lam` is the least eigenvalue of `M`. -/
def IsMinEigenvalue {m : ℕ} (M : Fin m → Fin m → ℚ) (lam : ℝ) : Prop :=
  IsEigenvalue M lam ∧ ∀ μ : ℝ, IsEigenvalue M μ → lam ≤ μ

/-- Twice the center of the coupled block `{5, 10}` of `jwMatrix`, ×`10^18`. -/
def m4Z : ℤ := jwDiagZ 5 + jwDiagZ 10

/-- Difference of the diagonal entries of block `{5, 10}`, ×`10^18`. -/
def delta4Z : ℤ := jwDiagZ 5 - jwDiagZ 10

/-- The coupling of block `{5, 10}`, ×`10^18`. -/
def e4Z : ℤ := jwCouplingZ 5

/-- Discriminant of block `{5, 10}` of `jwMatrix`, ×`10^36`. -/
def s4Z : ℤ := delta4Z ^ 2 + 4 * e4Z ^ 2

/-- Twice the center of the coupled block `{1, 2}` of `parityMatrix`,
×`10^18`. -/
def m2Z : ℤ := parityDiagZ 1 + parityDiagZ 2

/-- Difference of the diagonal entries of block `{1, 2}`, ×`10^18`. -/
def delta2Z : ℤ := parityDiagZ 1 - parityDiagZ 2

/-- The coupling of `parityMatrix`, ×`10^18`. -/
def e2Z : ℤ := parityCouplingZ 1

/-- Discriminant of block `{1, 2}` of `parityMatrix`, ×`10^36`. -/
def s2Z : ℤ := delta2Z ^ 2 + 4 * e2Z ^ 2

/-- The minimum eigenvalue of the recorded Jordan-Wigner operator
(established in `jw_ground_isMin`). -/
noncomputable def jwGroundEnergy : ℝ :=
  ((m4Z : ℝ) - Real.sqrt (s4Z : ℝ)) / (2 * 10 ^ 18)

/-- The minimum eigenvalue of the recorded parity-reduced operator
(established in `parity_ground_isMin`). -/
noncomputable def parityGroundEnergy : ℝ :=
  ((m2Z : ℝ) - Real.sqrt (s2Z : ℝ)) / (2 * 10 ^ 18)

/-- Upper-bound rational approximation used to separate the block `{6, 9}`
minimum from the global minimum. -/
def u0Z : ℤ := 362 * 10 ^ 15

/-- Eigenvector of `jwMatrix` for the minimum eigenvalue, supported on the
coupled block `{5, 10}`. -/
noncomputable def jwVec : Fin 16 → ℝ := fun r =>
  if r = 5 then 2 * (e4Z : ℝ)
  else if r = 10 then -(delta4Z : ℝ) - Real.sqrt (s4Z : ℝ) else 0

/-- Eigenvector of `parityMatrix` for the minimum eigenvalue, supported on
the coupled block `{1, 2}`. -/
noncomputable def parityVec : Fin 4 → ℝ := fun r =>
  if r = 1 then 2 * (e2Z : ℝ)
  else if r = 2 then -(delta2Z : ℝ) - Real.sqrt (s2Z : ℝ) else 0

/- ## Recorded results of the ground-state tutorial

Cell outputs 25 and 26 of `03_ground_state_solvers.ipynb` record the result
reports of `GroundStateEigensolver.solve` on the H2 electronic-structure
problem, first with the VQE/UCC solver, then with the NumPy minimum
eigensolver; the filter-function cell records the two vibrational runs. -/
/-- Recorded "Electronic ground state energy (Hartree): -1.857275030145" (VQE run). -/
def vqeElectronicGSE : ℚ := -1.857275030145

/-- Recorded "Nuclear repulsion energy (Hartree): 0.719968994449" (VQE run). -/
def vqeNuclearRepulsion : ℚ := 0.719968994449

/-- Recorded "Total ground state energy (Hartree): -1.137306035696" (VQE run). -/
def vqeTotalGSE : ℚ := -1.137306035696

/-- Recorded "Electronic ground state energy (Hartree): -1.857275030202" (NumPy run). -/
def numpyElectronicGSE : ℚ := -1.857275030202

/-- Recorded "Nuclear repulsion energy (Hartree): 0.719968994449" (NumPy run). -/
def numpyNuclearRepulsion : ℚ := 0.719968994449

/-- Recorded "Total ground state energy (Hartree): -1.137306035753" (NumPy run). -/
def numpyTotalGSE : ℚ := -1.137306035753

/-- Recorded "Vibrational ground state energy (cm^-1): (1e-11+0j)" — real part
of the unfiltered vibrational run. -/
def unfilteredVibEnergy : ℚ := 1e-11

/-- Recorded "Mode 0: [0.0, 0.0, 0.0, 0.0]" — occupations of the unfiltered run. -/
def unfilteredOccupations : List ℚ := [0.0, 0.0, 0.0, 0.0]

/-- Recorded "Vibrational ground state energy (cm^-1): (2553.464851175482+0j)"
— real part of the filtered vibrational run. -/
def filteredVibEnergy : ℚ := 2553.464851175482

/-- Recorded "Mode 0: [0.9999999999999999, 0.9999999999999999,
0.9999999999999999, 0.9999999999999999]" — occupations of the filtered run. -/
def filteredOccupations : List ℚ :=
  [0.9999999999999999, 0.9999999999999999, 0.9999999999999999, 0.9999999999999999]

/-- Modelled from the spec: `NumPyMinimumEigensolver` is implemented by the
external framework (`qiskit.algorithms`), not in this repository.  The
tutorial says it "exactly diagonalizes the Hamiltonian"; the glossary defines
the ground state as the lowest-energy eigenstate.  We model its output on a
finite list of eigenvalues as the minimum of the list. -/
def numpyMinimumEigensolverValue (eigenvalues : List ℝ) : ℝ :=
  match eigenvalues with
  | [] => 0
  | e :: es => es.foldl min e

/- ## The example programs as abstract syntax

The README example and the two tutorials' code cells are transcribed
statement by statement.  Python expressions become `PExpr`, statements become
`PStmt`; IPython magics (`%qiskit_version_table`, `%qiskit_copyright`) are a
dedicated constructor.  Constructors for `raise`, `try`/`except`, loops,
`with` and `async def` exist so that their absence from the transcriptions is
a meaningful check. -/
mutual
inductive PExpr where
  | var (name : String)
  | strLit (s : String)
  | numLit (lit : String)
  | boolLit (b : Bool)
  | listLit (elems : PExprList)
  | tupleLit (elems : PExprList)
  | call (fn : String) (args : PExprList) (kwargs : PKwargs)
  | method (recv : PExpr) (name : String) (args : PExprList) (kwargs : PKwargs)
  | attr (recv : PExpr) (field : String)
  | index (recv : PExpr) (i : Nat)
  | binop (op : String) (lhs rhs : PExpr)
inductive PExprList where
  | nil
  | cons (head : PExpr) (tail : PExprList)
inductive PKwargs where
  | nil
  | cons (key : String) (val : PExpr) (tail : PKwargs)
end

inductive PStmt where
  | importFrom (module : String) (names : List String)
  | importMod (module : String)
  | assign (lhs : String) (rhs : PExpr)
  | exprStmt (e : PExpr)
  | printStmt (args : List PExpr)
  | magicStmt (name : String)
  | raiseStmt (e : PExpr)
  | tryExcept (body : List PStmt) (handler : List PStmt)
  | forLoop (v : String) (iter : PExpr) (body : List PStmt)
  | whileLoop (cond : PExpr) (body : List PStmt)
  | withBlock (ctx : PExpr) (body : List PStmt)
  | asyncFunDef (name : String) (body : List PStmt)

/-- Convert a list literal of expressions into `PExprList`. -/
def pl : List PExpr → PExprList
  | [] => .nil
  | e :: es => .cons e (pl es)

/-- Convert a list of keyword arguments into `PKwargs`. -/
def kw : List (String × PExpr) → PKwargs
  | [] => .nil
  | (k, v) :: rest => .cons k v (kw rest)

mutual
/-- Names read by an expression: referenced variables and called function
names (method and attribute names resolve on their receiver object, not in
the environment). -/
def exprReads : PExpr → List String
  | .var x => [x]
  | .strLit _ => []
  | .numLit _ => []
  | .boolLit _ => []
  | .listLit es => exprListReads es
  | .tupleLit es => exprListReads es
  | .call f args kws => f :: (exprListReads args ++ kwargsReads kws)
  | .method recv _ args kws => exprReads recv ++ exprListReads args ++ kwargsReads kws
  | .attr recv _ => exprReads recv
  | .index recv _ => exprReads recv
  | .binop _ l r => exprReads l ++ exprReads r
def exprListReads : PExprList → List String
  | .nil => []
  | .cons e es => exprReads e ++ exprListReads es
def kwargsReads : PKwargs → List String
  | .nil => []
  | .cons _ v t => exprReads v ++ kwargsReads t
end

mutual
/-- All function and method names invoked inside an expression. -/
def exprCallNames : PExpr → List String
  | .var _ => []
  | .strLit _ => []
  | .numLit _ => []
  | .boolLit _ => []
  | .listLit es => exprListCallNames es
  | .tupleLit es => exprListCallNames es
  | .call f args kws => f :: (exprListCallNames args ++ kwargsCallNames kws)
  | .method recv nm args kws =>
      nm :: (exprCallNames recv ++ exprListCallNames args ++ kwargsCallNames kws)
  | .attr recv _ => exprCallNames recv
  | .index recv _ => exprCallNames recv
  | .binop _ l r => exprCallNames l ++ exprCallNames r
def exprListCallNames : PExprList → List String
  | .nil => []
  | .cons e es => exprCallNames e ++ exprListCallNames es
def kwargsCallNames : PKwargs → List String
  | .nil => []
  | .cons _ v t => exprCallNames v ++ kwargsCallNames t
end

/-- Names a statement reads (top level; the transcribed programs contain no
block statements, which is proven separately). -/
def stmtReads : PStmt → List String
  | .importFrom _ _ => []
  | .importMod _ => []
  | .assign _ rhs => exprReads rhs
  | .exprStmt e => exprReads e
  | .printStmt args => args.foldr (fun e acc => exprReads e ++ acc) []
  | .magicStmt _ => []
  | .raiseStmt e => exprReads e
  | .tryExcept _ _ => []
  | .forLoop _ iter _ => exprReads iter
  | .whileLoop cond _ => exprReads cond
  | .withBlock ctx _ => exprReads ctx
  | .asyncFunDef _ _ => []

/-- Names a statement binds. -/
def stmtWrites : PStmt → List String
  | .importFrom _ names => names
  | .importMod m => [m]
  | .assign x _ => [x]
  | .forLoop v _ _ => [v]
  | .asyncFunDef n _ => [n]
  | _ => []

/-- All function, method and module names a statement mentions. -/
def stmtCallNames : PStmt → List String
  | .importFrom m names => m :: names
  | .importMod m => [m]
  | .assign _ rhs => exprCallNames rhs
  | .exprStmt e => exprCallNames e
  | .printStmt args => args.foldr (fun e acc => exprCallNames e ++ acc) []
  | .magicStmt n => [n]
  | .raiseStmt e => exprCallNames e
  | .tryExcept _ _ => []
  | .forLoop _ iter _ => exprCallNames iter
  | .whileLoop cond _ => exprCallNames cond
  | .withBlock ctx _ => exprCallNames ctx
  | .asyncFunDef _ _ => []

def defBeforeUseGo (bound : List String) : List PStmt → Bool
  | [] => true
  | s :: rest =>
      (stmtReads s).all (fun x => bound.contains x)
        && defBeforeUseGo (bound ++ stmtWrites s) rest

/-- Every name a statement reads was bound by an earlier statement
(assignment or import): no step uses a value produced by a later step. -/
def defBeforeUse (prog : List PStmt) : Bool := defBeforeUseGo [] prog

def isExprStmt : PStmt → Bool
  | .exprStmt _ => true
  | _ => false

def isErrorHandling : PStmt → Bool
  | .raiseStmt _ => true
  | .tryExcept _ _ => true
  | _ => false

def isLoop : PStmt → Bool
  | .forLoop _ _ _ => true
  | .whileLoop _ _ => true
  | _ => false

def isBlockStmt : PStmt → Bool
  | .tryExcept _ _ => true
  | .forLoop _ _ _ => true
  | .whileLoop _ _ => true
  | .withBlock _ _ => true
  | .asyncFunDef _ _ => true
  | _ => false

def isAsyncStmt : PStmt → Bool
  | .asyncFunDef _ _ => true
  | _ => false

/- ## Sequential environment semantics

Values are symbolic terms: a call into the external framework evaluates to an
opaque object tagged with the call.  Modelled from the spec: the framework
calls made by these examples are pure — the spec states the repository "does
not define, mutate, or own any persistent entity", and in particular
`QuantumCircuit.compose` (invoked without `inplace`) returns a new circuit
and leaves its receiver unchanged — so an expression statement leaves the
state unchanged and assignment is the only way a binding changes. -/
mutual
inductive Val where
  | obj (tag : String) (args : ValList)
  | vstr (s : String)
  | vnum (lit : String)
  | vbool (b : Bool)
  | vlist (elems : ValList)
  | vtuple (elems : ValList)
  | vnone
inductive ValList where
  | nil
  | cons (head : Val) (tail : ValList)
end

def lookupVar : List (String × Val) → String → Val
  | [], _ => .vnone
  | (y, v) :: rest, x => if y = x then v else lookupVar rest x

def appendVL : ValList → ValList → ValList
  | .nil, ws => ws
  | .cons v vs, ws => .cons v (appendVL vs ws)

mutual
def evalExpr (env : List (String × Val)) : PExpr → Val
  | .var x => lookupVar env x
  | .strLit s => .vstr s
  | .numLit q => .vnum q
  | .boolLit b => .vbool b
  | .listLit es => .vlist (evalList env es)
  | .tupleLit es => .vtuple (evalList env es)
  | .call f args kws => .obj f (appendVL (evalList env args) (evalKwargs env kws))
  | .method recv nm args kws =>
      .obj ("method:" ++ nm)
        (.cons (evalExpr env recv) (appendVL (evalList env args) (evalKwargs env kws)))
  | .attr recv f => .obj ("attr:" ++ f) (.cons (evalExpr env recv) .nil)
  | .index recv i => .obj ("index:" ++ toString i) (.cons (evalExpr env recv) .nil)
  | .binop op l r =>
      .obj ("binop:" ++ op) (.cons (evalExpr env l) (.cons (evalExpr env r) .nil))
def evalList (env : List (String × Val)) : PExprList → ValList
  | .nil => .nil
  | .cons e es => .cons (evalExpr env e) (evalList env es)
def evalKwargs (env : List (String × Val)) : PKwargs → ValList
  | .nil => .nil
  | .cons k v t =>
      .cons (.obj ("kw:" ++ k) (.cons (evalExpr env v) .nil)) (evalKwargs env t)
end

structure PState where
  env : List (String × Val)
  output : List Val

def initState : PState := ⟨[], []⟩

/-- One step of the sequential semantics.  Block statements (`try`, loops,
`with`, `async def`) never occur in the transcribed programs — their absence
is proven — so they are no-ops here. -/
def execStmt (st : PState) : PStmt → PState
  | .importFrom _ names =>
      { st with
        env := names.foldl (fun e n => (n, Val.obj ("imported:" ++ n) .nil) :: e) st.env }
  | .importMod m => { st with env := (m, Val.obj ("module:" ++ m) .nil) :: st.env }
  | .assign x rhs => { st with env := (x, evalExpr st.env rhs) :: st.env }
  | .exprStmt _ => st
  | .printStmt args => { st with output := st.output ++ args.map (evalExpr st.env) }
  | .magicStmt _ => st
  | .raiseStmt _ => st
  | .tryExcept _ _ => st
  | .forLoop _ _ _ => st
  | .whileLoop _ _ => st
  | .withBlock _ _ => st
  | .asyncFunDef _ _ => st

/-- Running a program: the statements execute strictly in order, each one
completing before the next starts. -/
def runProg (prog : List PStmt) (st : PState) : PState := prog.foldl execStmt st

/- ## Phase classification

The spec describes the examples as "driver construction, problem
construction, qubit converter construction, eigensolver construction and
invocation" followed by "rendering of their textual result reports".  Each
statement is classified by the framework entry point it invokes. -/
inductive Phase where
  | driver | problem | converter | solver | render
deriving DecidableEq, BEq

def phaseRank : Phase → Nat
  | .driver => 0
  | .problem => 1
  | .converter => 2
  | .solver => 3
  | .render => 4

/-- Phase of a framework entry point.  Solver ingredients (the classical
optimizer, ansatz circuits, backends, quantum instances, solver factories)
count as eigensolver construction; `solve` and `compute_minimum_eigenvalue`
are the eigensolver invocations; `interpret` and `draw` render reports. -/
def callPhase (fn : String) : Option Phase :=
  if fn ∈ ["Molecule", "PySCFDriver", "GaussianForcesDriver"] then some .driver
  else if fn ∈ ["ElectronicStructureProblem", "VibrationalStructureProblem",
      "second_q_ops"] then some .problem
  else if fn ∈ ["JordanWignerMapper", "ParityMapper", "DirectMapper", "QubitConverter",
      "convert"] then some .converter
  else if fn ∈ ["NumPyMinimumEigensolver", "VQEUCCFactory",
      "NumPyMinimumEigensolverFactory", "VQE", "L_BFGS_B", "TwoLocal", "HartreeFock",
      "QuantumInstance", "get_backend", "GroundStateEigensolver",
      "compute_minimum_eigenvalue", "solve"] then some .solver
  else if fn ∈ ["interpret", "draw"] then some .render
  else none

def exprHeadName : PExpr → Option String
  | .call f _ _ => some f
  | .method _ nm _ _ => some nm
  | _ => none

def stmtPhase : PStmt → Option Phase
  | .assign _ rhs => (exprHeadName rhs).bind callPhase
  | .exprStmt e => (exprHeadName e).bind callPhase
  | .printStmt _ => some .render
  | _ => none

def phasesOf (prog : List PStmt) : List Phase := prog.filterMap stmtPhase

/-- The phases appear in nondecreasing order. -/
def phasesSorted : List Phase → Bool
  | [] => true
  | [_] => true
  | a :: b :: t => Nat.ble (phaseRank a) (phaseRank b) && phasesSorted (b :: t)

/-- Index of the first statement of a given phase (the program length if the
phase never occurs). -/
def firstIdx (prog : List PStmt) (ph : Phase) : Nat :=
  (prog.map stmtPhase).findIdx (fun o => o == some ph)

/- ## The transcribed programs -/
/-- The README's "Creating Your First Chemistry Programming Experiment"
example (README.md, python block), statement by statement. -/
def readmeProgram : List PStmt :=
  [ .importFrom "qiskit_nature.drivers" ["PySCFDriver", "UnitsType"],
    .importFrom "qiskit_nature.problems.second_quantization.electronic"
      ["ElectronicStructureProblem"],
    .assign "driver" (.call "PySCFDriver" (pl [])
      (kw [("atom", .strLit "H .0 .0 .0; H .0 .0 0.735"),
           ("unit", .attr (.var "UnitsType") "ANGSTROM"),
           ("basis", .strLit "sto3g")])),
    .assign "problem" (.call "ElectronicStructureProblem" (pl [.var "driver"]) (kw [])),
    .assign "second_q_ops" (.method (.var "problem") "second_q_ops" (pl []) (kw [])),
    .assign "main_op" (.index (.var "second_q_ops") 0),
    .assign "num_particles" (.tupleLit (pl
      [.attr (.attr (.var "problem") "molecule_data_transformed") "num_alpha",
       .attr (.attr (.var "problem") "molecule_data_transformed") "num_beta"])),
    .assign "num_spin_orbitals" (.binop "*" (.numLit "2")
      (.attr (.attr (.var "problem") "molecule_data") "num_molecular_orbitals")),
    .importFrom "qiskit.algorithms.optimizers" ["L_BFGS_B"],
    .assign "optimizer" (.call "L_BFGS_B" (pl []) (kw [])),
    .importFrom "qiskit_nature.mappers.second_quantization" ["ParityMapper"],
    .importFrom "qiskit_nature.operators.second_quantization.qubit_converter"
      ["QubitConverter"],
    .assign "mapper" (.call "ParityMapper" (pl []) (kw [])),
    .assign "converter" (.call "QubitConverter" (pl [])
      (kw [("mapper", .var "mapper"), ("two_qubit_reduction", .boolLit true)])),
    .assign "qubit_op" (.method (.var "converter") "convert" (pl [.var "main_op"])
      (kw [("num_particles", .var "num_particles")])),
    .importFrom "qiskit_nature.circuit.library" ["HartreeFock"],
    .assign "init_state" (.call "HartreeFock"
      (pl [.var "num_spin_orbitals", .var "num_particles", .var "converter"]) (kw [])),
    .importFrom "qiskit.circuit.library" ["TwoLocal"],
    .assign "ansatz" (.call "TwoLocal"
      (pl [.var "num_spin_orbitals", .listLit (pl [.strLit "ry", .strLit "rz"]),
           .strLit "cz"]) (kw [])),
    .exprStmt (.method (.var "ansatz") "compose" (pl [.var "init_state"])
      (kw [("front", .boolLit true)])),
    .importFrom "qiskit" ["Aer"],
    .assign "backend" (.method (.var "Aer") "get_backend"
      (pl [.strLit "statevector_simulator"]) (kw [])),
    .importFrom "qiskit.algorithms" ["VQE"],
    .assign "algorithm" (.call "VQE" (pl [.var "ansatz"])
      (kw [("optimizer", .var "optimizer"), ("quantum_instance", .var "backend")])),
    .assign "result" (.method (.var "algorithm") "compute_minimum_eigenvalue"
      (pl [.var "qubit_op"]) (kw [])),
    .printStmt [.attr (.attr (.var "result") "eigenvalue") "real"],
    .assign "electronic_structure_result" (.method (.var "problem") "interpret"
      (pl [.var "result"]) (kw [])),
    .printStmt [.var "electronic_structure_result"] ]

/-- The electronic-structure tutorial's code cells 1–6, statement by
statement. -/
def electronicProgram : List PStmt :=
  [ .importFrom "qiskit_nature.drivers" ["PySCFDriver", "UnitsType", "Molecule"],
    .assign "molecule" (.call "Molecule" (pl [])
      (kw [("geometry", .listLit (pl
              [.listLit (pl [.strLit "H",
                 .listLit (pl [.numLit "0.", .numLit "0.", .numLit "0."])]),
               .listLit (pl [.strLit "H",
                 .listLit (pl [.numLit "0.", .numLit "0.", .numLit "0.735"])])])),
           ("charge", .numLit "0"), ("multiplicity", .numLit "1")])),
    .assign "driver" (.call "PySCFDriver" (pl [])
      (kw [("molecule", .var "molecule"),
           ("unit", .attr (.var "UnitsType") "ANGSTROM"),
           ("basis", .strLit "sto3g")])),
    .importFrom "qiskit_nature.problems.second_quantization.electronic"
      ["ElectronicStructureProblem"],
    .importFrom "qiskit_nature.operators.second_quantization.qubit_converter"
      ["QubitConverter"],
    .importFrom "qiskit_nature.mappers.second_quantization"
      ["JordanWignerMapper", "ParityMapper"],
    .assign "es_problem" (.call "ElectronicStructureProblem" (pl [.var "driver"]) (kw [])),
    .assign "second_q_op" (.method (.var "es_problem") "second_q_ops" (pl []) (kw [])),
    .printStmt [.index (.var "second_q_op") 0],
    .assign "qubit_converter" (.call "QubitConverter" (pl [])
      (kw [("mapper", .call "JordanWignerMapper" (pl []) (kw []))])),
    .assign "qubit_op" (.method (.var "qubit_converter") "convert"
      (pl [.index (.var "second_q_op") 0]) (kw [])),
    .printStmt [.var "qubit_op"],
    .assign "qubit_converter" (.call "QubitConverter" (pl [])
      (kw [("mapper", .call "ParityMapper" (pl []) (kw [])),
           ("two_qubit_reduction", .boolLit true)])),
    .assign "qubit_op" (.method (.var "qubit_converter") "convert"
      (pl [.index (.var "second_q_op") 0])
      (kw [("num_particles", .attr (.var "es_problem") "num_particles")])),
    .printStmt [.var "qubit_op"],
    .importMod "qiskit.tools.jupyter",
    .magicStmt "qiskit_version_table",
    .magicStmt "qiskit_copyright" ]

/-- The ground-state tutorial's code cells (21–26, then the filter-function
cell 16 and the version cell 17), statement by statement.  The misspelt
binding `qubit_covnerter` in the filter cell is statement 35. -/
def groundStateProgram : List PStmt :=
  [ .importFrom "qiskit" ["Aer"],
    .importFrom "qiskit_nature.drivers" ["PySCFDriver", "UnitsType", "Molecule"],
    .importFrom "qiskit_nature.problems.second_quantization.electronic"
      ["ElectronicStructureProblem"],
    .importFrom "qiskit_nature.operators.second_quantization.qubit_converter"
      ["QubitConverter"],
    .importFrom "qiskit_nature.mappers.second_quantization" ["JordanWignerMapper"],
    .assign "molecule" (.call "Molecule" (pl [])
      (kw [("geometry", .listLit (pl
              [.listLit (pl [.strLit "H",
                 .listLit (pl [.numLit "0.", .numLit "0.", .numLit "0."])]),
               .listLit (pl [.strLit "H",
                 .listLit (pl [.numLit "0.", .numLit "0.", .numLit "0.735"])])])),
           ("charge", .numLit "0"), ("multiplicity", .numLit "1")])),
    .assign "driver" (.call "PySCFDriver" (pl [])
      (kw [("molecule", .var "molecule"),
           ("unit", .attr (.var "UnitsType") "ANGSTROM"),
           ("basis", .strLit "sto3g")])),
    .assign "es_problem" (.call "ElectronicStructureProblem" (pl [.var "driver"]) (kw [])),
    .assign "qubit_converter" (.call "QubitConverter"
      (pl [.call "JordanWignerMapper" (pl []) (kw [])]) (kw [])),
    .importFrom "qiskit.algorithms" ["NumPyMinimumEigensolver"],
    .assign "numpy_solver" (.call "NumPyMinimumEigensolver" (pl []) (kw [])),
    .importFrom "qiskit.providers.aer" ["StatevectorSimulator"],
    .importFrom "qiskit" ["Aer"],
    .importFrom "qiskit.utils" ["QuantumInstance"],
    .importFrom "qiskit_nature.algorithms.ground_state_solvers.minimum_eigensolver_factories"
      ["VQEUCCFactory"],
    .assign "quantum_instance" (.call "QuantumInstance" (pl [])
      (kw [("backend", .method (.var "Aer") "get_backend"
              (pl [.strLit "statevector_simulator"]) (kw []))])),
    .assign "vqe_solver" (.call "VQEUCCFactory" (pl [.var "quantum_instance"]) (kw [])),
    .importFrom "qiskit.algorithms" ["VQE"],
    .importFrom "qiskit.circuit.library" ["TwoLocal"],
    .assign "tl_circuit" (.call "TwoLocal" (pl [])
      (kw [("rotation_blocks", .listLit (pl [.strLit "h", .strLit "rx"])),
           ("entanglement_blocks", .strLit "cz"),
           ("entanglement", .strLit "full"),
           ("reps", .numLit "3"),
           ("parameter_prefix", .strLit "y")])),
    .exprStmt (.method (.var "tl_circuit") "draw" (pl [])
      (kw [("output", .strLit "mpl")])),
    .assign "another_solver" (.call "VQE" (pl [])
      (kw [("ansatz", .var "tl_circuit"),
           ("quantum_instance", .call "QuantumInstance"
              (pl [.method (.var "Aer") "get_backend"
                     (pl [.strLit "statevector_simulator"]) (kw [])]) (kw []))])),
    .importFrom "qiskit_nature.algorithms.ground_state_solvers" ["GroundStateEigensolver"],
    .assign "calc" (.call "GroundStateEigensolver"
      (pl [.var "qubit_converter", .var "vqe_solver"]) (kw [])),
    .assign "res" (.method (.var "calc") "solve" (pl [.var "es_problem"]) (kw [])),
    .printStmt [.var "res"],
    .assign "calc" (.call "GroundStateEigensolver"
      (pl [.var "qubit_converter", .var "numpy_solver"]) (kw [])),
    .assign "res" (.method (.var "calc") "solve" (pl [.var "es_problem"]) (kw [])),
    .printStmt [.var "res"],
    .importFrom "qiskit_nature.drivers" ["GaussianForcesDriver"],
    .importFrom "qiskit_nature.algorithms.ground_state_solvers.minimum_eigensolver_factories"
      ["NumPyMinimumEigensolverFactory"],
    .importFrom "qiskit_nature.problems.second_quantization.vibrational.vibrational_structure_problem"
      ["VibrationalStructureProblem"],
    .importFrom "qiskit_nature.mappers.second_quantization" ["DirectMapper"],
    .assign "driver" (.call "GaussianForcesDriver" (pl [])
      (kw [("logfile", .strLit "aux_files/CO2_freq_B3LYP_ccpVDZ.log")])),
    .assign "vib_problem" (.call "VibrationalStructureProblem" (pl [.var "driver"])
      (kw [("num_modals", .numLit "2"), ("truncation_order", .numLit "2")])),
    .assign "qubit_covnerter" (.call "QubitConverter"
      (pl [.call "DirectMapper" (pl []) (kw [])]) (kw [])),
    .assign "solver_without_filter" (.call "NumPyMinimumEigensolverFactory" (pl [])
      (kw [("use_default_filter_criterion", .boolLit false)])),
    .assign "solver_with_filter" (.call "NumPyMinimumEigensolverFactory" (pl [])
      (kw [("use_default_filter_criterion", .boolLit true)])),
    .assign "gsc_wo" (.call "GroundStateEigensolver"
      (pl [.var "qubit_converter", .var "solver_without_filter"]) (kw [])),
    .assign "result_wo" (.method (.var "gsc_wo") "solve" (pl [.var "vib_problem"]) (kw [])),
    .assign "gsc_w" (.call "GroundStateEigensolver"
      (pl [.var "qubit_converter", .var "solver_with_filter"]) (kw [])),
    .assign "result_w" (.method (.var "gsc_w") "solve" (pl [.var "vib_problem"]) (kw [])),
    .printStmt [.var "result_wo"],
    .printStmt [.strLit "\n\n"],
    .printStmt [.var "result_w"],
    .importMod "qiskit.tools.jupyter",
    .magicStmt "qiskit_version_table",
    .magicStmt "qiskit_copyright" ]

/-- The three example programs of the repository. -/
def repoExamplePrograms : List (List PStmt) :=
  [readmeProgram, electronicProgram, groundStateProgram]

/-- Names whose invocation or import would introduce concurrency, scheduling
or explicit resource management. -/
def concurrencyPrimitives : List String :=
  ["threading", "multiprocessing", "asyncio", "concurrent.futures", "Thread",
   "Process", "ThreadPoolExecutor", "ProcessPoolExecutor", "run_in_executor",
   "create_task", "fork", "spawn", "Lock", "Semaphore", "Queue"]

/-- One term of the H2 second-quantized electronic Hamiltonian exactly as
printed in cell output 3 of the electronic-structure tutorial: its label and
the real part of its coefficient. -/
def h2FermionicHamiltonian : List (String × ℚ) :=
  [ ("+-+-", 0.18093119978423136),
    ("+--+", -0.18093119978423142),
    ("-++-", -0.18093119978423142),
    ("-+-+", 0.18093119978423144),
    ("IIIN", -0.4718960072811406),
    ("IINI", -1.2563390730032502),
    ("IINN", 0.4836505304710652),
    ("INII", -0.4718960072811406),
    ("ININ", 0.6985737227320181),
    ("INNI", 0.6645817302552965),
    ("NIII", -1.2563390730032502),
    ("NIIN", 0.6645817302552965),
    ("NINI", 0.6757101548035165),
    ("NNII", 0.4836505304710652) ]

/-- Modelled from the spec: `ElectronicStructureProblem.second_q_ops` is
implemented by the external framework, not in this repository.  The README
says the problem "generates a list of second-quantized operators", whose
element 0 — the electronic Hamiltonian — is the only element both examples
use and the one recorded in cell output 3.  We model the returned list as
headed by that recorded Hamiltonian. -/
def secondQOps : List (List (String × ℚ)) := [h2FermionicHamiltonian]

/- ## Theorems: the decide-checked structure facts, the spectral analysis,
and the claims -/

theorem jwA_entries :
    ∀ r c : Fin 16,
      opEntryReA jwTerms 4 r c =
        if c = r then jwDiagZ r else if c = pair16 r then jwCouplingZ r else 0 := by
  decide

theorem jwB_zero : ∀ r c : Fin 16, opEntryReB jwTerms 4 r c = 0 := by
  decide

theorem jwIm_zero : ∀ r c : Fin 16,
    opEntryImA jwTerms 4 r c = 0 ∧ opEntryImB jwTerms 4 r c = 0 := by
  decide

theorem parityA_entries :
    ∀ r c : Fin 4,
      opEntryReA parityTerms 2 r c =
        if c = r then parityDiagZ r
        else if c = pair4 r then parityCouplingZ r else 0 := by
  decide

theorem parityB_zero : ∀ r c : Fin 4, opEntryReB parityTerms 2 r c = 0 := by
  decide

theorem jwMatrixR_eq (r c : Fin 16) :
    (jwMatrix r c : ℝ)
      = (if c = r then (jwDiagZ r : ℝ)
         else if c = pair16 r then (jwCouplingZ r : ℝ) else 0) / 10 ^ 18 := by
  have hA := jwA_entries r c
  have hB := jwB_zero r c
  unfold jwMatrix opEntryRe
  rw [hA, hB]
  by_cases h1 : c = r
  · rw [if_pos h1, if_pos h1]; push_cast; ring
  · by_cases h2 : c = pair16 r
    · rw [if_neg h1, if_pos h2, if_neg h1, if_pos h2]; push_cast; ring
    · rw [if_neg h1, if_neg h2, if_neg h1, if_neg h2]; push_cast; ring

theorem parityMatrixR_eq (r c : Fin 4) :
    (parityMatrix r c : ℝ)
      = (if c = r then (parityDiagZ r : ℝ)
         else if c = pair4 r then (parityCouplingZ r : ℝ) else 0) / 10 ^ 18 := by
  have hA := parityA_entries r c
  have hB := parityB_zero r c
  unfold parityMatrix opEntryRe
  rw [hA, hB]
  by_cases h1 : c = r
  · rw [if_pos h1, if_pos h1]; push_cast; ring
  · by_cases h2 : c = pair4 r
    · rw [if_neg h1, if_pos h2, if_neg h1, if_pos h2]; push_cast; ring
    · rw [if_neg h1, if_neg h2, if_neg h1, if_neg h2]; push_cast; ring

theorem jw_row (v : Fin 16 → ℝ) (r : Fin 16) :
    (∑ c, (jwMatrix r c : ℝ) * v c)
      = ((jwDiagZ r : ℝ) * v r + (jwCouplingZ r : ℝ) * v (pair16 r)) / 10 ^ 18 := by
  have hne : pair16 r ≠ r := by
    have h : ∀ t : Fin 16, pair16 t ≠ t := by decide
    exact h r
  have expand : (∑ c, (jwMatrix r c : ℝ) * v c)
      = (∑ c, if c = r then ((jwDiagZ r : ℝ) / 10 ^ 18) * v c else 0)
        + (∑ c, if c = pair16 r then ((jwCouplingZ r : ℝ) / 10 ^ 18) * v c else 0) := by
    rw [← Finset.sum_add_distrib]
    refine Finset.sum_congr rfl fun c _ => ?_
    rw [jwMatrixR_eq r c]
    by_cases h1 : c = r
    · rw [if_pos h1, if_pos h1, if_neg (fun hcp => hne ((h1.symm.trans hcp).symm))]
      ring
    · by_cases h2 : c = pair16 r
      · rw [if_neg h1, if_pos h2, if_neg h1, if_pos h2]; ring
      · rw [if_neg h1, if_neg h2, if_neg h1, if_neg h2]; ring
  rw [expand, Finset.sum_ite_eq' Finset.univ r, Finset.sum_ite_eq' Finset.univ (pair16 r)]
  simp only [Finset.mem_univ, if_pos]
  ring

theorem parity_row (v : Fin 4 → ℝ) (r : Fin 4) :
    (∑ c, (parityMatrix r c : ℝ) * v c)
      = ((parityDiagZ r : ℝ) * v r + (parityCouplingZ r : ℝ) * v (pair4 r)) / 10 ^ 18 := by
  have hne : pair4 r ≠ r := by
    have h : ∀ t : Fin 4, pair4 t ≠ t := by decide
    exact h r
  have expand : (∑ c, (parityMatrix r c : ℝ) * v c)
      = (∑ c, if c = r then ((parityDiagZ r : ℝ) / 10 ^ 18) * v c else 0)
        + (∑ c, if c = pair4 r then ((parityCouplingZ r : ℝ) / 10 ^ 18) * v c else 0) := by
    rw [← Finset.sum_add_distrib]
    refine Finset.sum_congr rfl fun c _ => ?_
    rw [parityMatrixR_eq r c]
    by_cases h1 : c = r
    · rw [if_pos h1, if_pos h1, if_neg (fun hcp => hne ((h1.symm.trans hcp).symm))]
      ring
    · by_cases h2 : c = pair4 r
      · rw [if_neg h1, if_pos h2, if_neg h1, if_pos h2]; ring
      · rw [if_neg h1, if_neg h2, if_neg h1, if_neg h2]; ring
  rw [expand, Finset.sum_ite_eq' Finset.univ r, Finset.sum_ite_eq' Finset.univ (pair4 r)]
  simp only [Finset.mem_univ, if_pos]
  ring

theorem le_sqrt_of_sq_le {t y : ℝ} (h : t ^ 2 ≤ y) : t ≤ Real.sqrt y := by
  rcases le_or_lt t 0 with ht | ht
  · exact ht.trans (Real.sqrt_nonneg y)
  · exact (Real.le_sqrt ht.le ((sq_nonneg t).trans h)).mpr h

theorem center_sub_sqrt_le {x m s : ℝ} (h : (x - m) ^ 2 = s) : m - Real.sqrt s ≤ x := by
  have habs : Real.sqrt s = |x - m| := by rw [← h, Real.sqrt_sq_eq_abs]
  have hnal := neg_abs_le (x - m)
  rw [habs]; linarith

/-- A 2×2 symmetric block with a nonzero eigenvector component forces the
characteristic equation. -/
theorem block_det {p p' q a b ν : ℝ} (h1 : p * a + q * b = ν * a)
    (h2 : q * a + p' * b = ν * b) (ha : a ≠ 0) :
    (ν - p) * (ν - p') = q ^ 2 := by
  rcases eq_or_ne b 0 with hb | hb
  · subst hb
    have h2' : q * a = 0 := by linear_combination h2
    have hq : q = 0 := (mul_eq_zero.mp h2').resolve_right ha
    have h1' : (ν - p) * a = 0 := by linear_combination -h1
    have hν : ν - p = 0 := (mul_eq_zero.mp h1').resolve_right ha
    rw [hν, hq]; ring
  · have e1 : (ν - p) * a = q * b := by linear_combination -h1
    have e2 : (ν - p') * b = q * a := by linear_combination -h2
    have key : ((ν - p) * (ν - p')) * (a * b) = q ^ 2 * (a * b) := by
      calc ((ν - p) * (ν - p')) * (a * b) = ((ν - p) * a) * ((ν - p') * b) := by ring
        _ = (q * b) * (q * a) := by rw [e1, e2]
        _ = q ^ 2 * (a * b) := by ring
    exact mul_right_cancel₀ (mul_ne_zero ha hb) key

/-- Row `r = 5`-type eigen identity on a coupled block. -/
theorem blockEigen1 {d5 e m δ S : ℝ} (hmδ : m + δ = 2 * d5) :
    d5 * (2 * e) + e * (-δ - S) = ((m - S) / 2) * (2 * e) := by
  linear_combination (-e) * hmδ

/-- Row `r = 10`-type eigen identity on a coupled block. -/
theorem blockEigen2 {d10 e m δ s S : ℝ} (hmδ : m - δ = 2 * d10)
    (hs : s = δ ^ 2 + 4 * e ^ 2) (hS2 : S ^ 2 = s) :
    d10 * (-δ - S) + e * (2 * e) = ((m - S) / 2) * (-δ - S) := by
  have hS2' : S ^ 2 = δ ^ 2 + 4 * e ^ 2 := by rw [hS2, hs]
  linear_combination ((δ + S) / 2) * hmδ + (-(1 : ℝ) / 2) * hS2'

theorem jw_block_key :
    ∀ r : Fin 16,
      (jwCouplingZ r = 0
        ∧ (m4Z - 2 * jwDiagZ r ≤ 0 ∨ (m4Z - 2 * jwDiagZ r) ^ 2 ≤ s4Z)
        ∧ (m4Z - 2 * jwDiagZ (pair16 r) ≤ 0
            ∨ (m4Z - 2 * jwDiagZ (pair16 r)) ^ 2 ≤ s4Z))
      ∨ (jwCouplingZ r = e4Z
        ∧ (jwDiagZ r - jwDiagZ (pair16 r)) ^ 2 + 4 * e4Z ^ 2 ≤ u0Z ^ 2
        ∧ (m4Z - (jwDiagZ r + jwDiagZ (pair16 r)) + u0Z) ^ 2 ≤ s4Z)
      ∨ (jwCouplingZ r = e4Z
        ∧ jwDiagZ r + jwDiagZ (pair16 r) = m4Z
        ∧ (jwDiagZ r - jwDiagZ (pair16 r)) ^ 2 + 4 * e4Z ^ 2 = s4Z) := by
  decide

theorem parity_block_key :
    ∀ r : Fin 4,
      (parityCouplingZ r = e2Z
        ∧ (parityDiagZ r - parityDiagZ (pair4 r)) ^ 2 + 4 * e2Z ^ 2 ≤ (2 * e2Z) ^ 2
        ∧ (m2Z - (parityDiagZ r + parityDiagZ (pair4 r)) + 2 * e2Z) ^ 2 ≤ s2Z)
      ∨ (parityCouplingZ r = e2Z
        ∧ parityDiagZ r + parityDiagZ (pair4 r) = m2Z
        ∧ (parityDiagZ r - parityDiagZ (pair4 r)) ^ 2 + 4 * e2Z ^ 2 = s2Z) := by
  decide

theorem jw_ground_isEigen : IsEigenvalue jwMatrix jwGroundEnergy := by
  have hs4nn : (0 : ℝ) ≤ (s4Z : ℝ) := by
    have h : (0 : ℤ) ≤ s4Z := by decide
    exact_mod_cast h
  have hS2 : Real.sqrt (s4Z : ℝ) ^ 2 = (s4Z : ℝ) := Real.sq_sqrt hs4nn
  have hv5 : jwVec 5 = 2 * (e4Z : ℝ) := by simp [jwVec]
  have hv10 : jwVec 10 = -(delta4Z : ℝ) - Real.sqrt (s4Z : ℝ) := by simp [jwVec]
  refine ⟨jwVec, ?_, ?_⟩
  · intro h
    have h5 : (2 : ℝ) * (e4Z : ℝ) = 0 := by rw [← hv5, h]; rfl
    have he : e4Z = 180931199784231416 := by decide
    rw [he] at h5
    norm_num at h5
  · intro r
    rw [jw_row]
    by_cases h5 : r = 5
    · subst h5
      have hp : pair16 5 = 10 := by decide
      rw [hp, hv5, hv10]
      have hmδ : (m4Z : ℝ) + (delta4Z : ℝ) = 2 * (jwDiagZ 5 : ℝ) := by
        simp only [m4Z, delta4Z]; push_cast; ring
      have hc : jwCouplingZ 5 = e4Z := rfl
      rw [hc]
      have key := blockEigen1 (e := (e4Z : ℝ)) (S := Real.sqrt (s4Z : ℝ)) hmδ
      rw [key]
      unfold jwGroundEnergy
      ring
    · by_cases h10 : r = 10
      · subst h10
        have hp : pair16 10 = 5 := by decide
        rw [hp, hv5, hv10]
        have hmδ : (m4Z : ℝ) - (delta4Z : ℝ) = 2 * (jwDiagZ 10 : ℝ) := by
          simp only [m4Z, delta4Z]; push_cast; ring
        have hs : (s4Z : ℝ) = (delta4Z : ℝ) ^ 2 + 4 * (e4Z : ℝ) ^ 2 := by
          simp only [s4Z]; push_cast; ring
        have hc : jwCouplingZ 10 = e4Z := by decide
        rw [hc]
        have key := blockEigen2 hmδ hs hS2
        rw [key]
        unfold jwGroundEnergy
        ring
      · have hz : jwVec r = 0 := by simp [jwVec, h5, h10]
        have hzp : jwVec (pair16 r) = 0 := by
          have hnot : ∀ t : Fin 16, t ≠ 5 → t ≠ 10 → pair16 t ≠ 5 ∧ pair16 t ≠ 10 := by
            decide
          simp [jwVec, (hnot r h5 h10).1, (hnot r h5 h10).2]
        rw [hz, hzp]
        ring

theorem parity_ground_isEigen : IsEigenvalue parityMatrix parityGroundEnergy := by
  have hs2nn : (0 : ℝ) ≤ (s2Z : ℝ) := by
    have h : (0 : ℤ) ≤ s2Z := by decide
    exact_mod_cast h
  have hS2 : Real.sqrt (s2Z : ℝ) ^ 2 = (s2Z : ℝ) := Real.sq_sqrt hs2nn
  have hv1 : parityVec 1 = 2 * (e2Z : ℝ) := by simp [parityVec]
  have hv2 : parityVec 2 = -(delta2Z : ℝ) - Real.sqrt (s2Z : ℝ) := by simp [parityVec]
  refine ⟨parityVec, ?_, ?_⟩
  · intro h
    have h1 : (2 : ℝ) * (e2Z : ℝ) = 0 := by rw [← hv1, h]; rfl
    have he : e2Z = 180931199784231420 := by decide
    rw [he] at h1
    norm_num at h1
  · intro r
    rw [parity_row]
    by_cases h1 : r = 1
    · subst h1
      have hp : pair4 1 = 2 := by decide
      rw [hp, hv1, hv2]
      have hmδ : (m2Z : ℝ) + (delta2Z : ℝ) = 2 * (parityDiagZ 1 : ℝ) := by
        simp only [m2Z, delta2Z]; push_cast; ring
      have hc : parityCouplingZ 1 = e2Z := rfl
      rw [hc]
      have key := blockEigen1 (e := (e2Z : ℝ)) (S := Real.sqrt (s2Z : ℝ)) hmδ
      rw [key]
      unfold parityGroundEnergy
      ring
    · by_cases h2 : r = 2
      · subst h2
        have hp : pair4 2 = 1 := by decide
        rw [hp, hv1, hv2]
        have hmδ : (m2Z : ℝ) - (delta2Z : ℝ) = 2 * (parityDiagZ 2 : ℝ) := by
          simp only [m2Z, delta2Z]; push_cast; ring
        have hs : (s2Z : ℝ) = (delta2Z : ℝ) ^ 2 + 4 * (e2Z : ℝ) ^ 2 := by
          simp only [s2Z]; push_cast; ring
        have hc : parityCouplingZ 2 = e2Z := by decide
        rw [hc]
        have key := blockEigen2 hmδ hs hS2
        rw [key]
        unfold parityGroundEnergy
        ring
      · have hz : parityVec r = 0 := by simp [parityVec, h1, h2]
        have hzp : parityVec (pair4 r) = 0 := by
          have hnot : ∀ t : Fin 4, t ≠ 1 → t ≠ 2 → pair4 t ≠ 1 ∧ pair4 t ≠ 2 := by
            decide
          simp [parityVec, (hnot r h1 h2).1, (hnot r h1 h2).2]
        rw [hz, hzp]
        ring

theorem jw_ground_le (μ : ℝ) (h : IsEigenvalue jwMatrix μ) : jwGroundEnergy ≤ μ := by
  obtain ⟨v, hv0, hveq⟩ := h
  have hex : ∃ r, v r ≠ 0 := by
    by_contra hall
    push_neg at hall
    exact hv0 (funext fun r => hall r)
  obtain ⟨r, hr⟩ := hex
  have h1 := hveq r
  have h2 := hveq (pair16 r)
  rw [jw_row] at h1 h2
  have hpp : pair16 (pair16 r) = r := by
    have h' : ∀ t : Fin 16, pair16 (pair16 t) = t := by decide
    exact h' r
  have hcp : jwCouplingZ (pair16 r) = jwCouplingZ r := by
    have h' : ∀ t : Fin 16, jwCouplingZ (pair16 t) = jwCouplingZ t := by decide
    exact h' r
  rw [hpp, hcp] at h2
  have h1' : (jwDiagZ r : ℝ) * v r + (jwCouplingZ r : ℝ) * v (pair16 r)
      = (10 ^ 18 * μ) * v r := by
    rw [div_eq_iff (by norm_num : (10 : ℝ) ^ 18 ≠ 0)] at h1
    linarith
  have h2' : (jwCouplingZ r : ℝ) * v r + (jwDiagZ (pair16 r) : ℝ) * v (pair16 r)
      = (10 ^ 18 * μ) * v (pair16 r) := by
    rw [div_eq_iff (by norm_num : (10 : ℝ) ^ 18 ≠ 0)] at h2
    linarith
  have hdet := block_det h1' h2' hr
  have hs4nn : (0 : ℝ) ≤ (s4Z : ℝ) := by
    have h' : (0 : ℤ) ≤ s4Z := by decide
    exact_mod_cast h'
  have hSnn : (0 : ℝ) ≤ Real.sqrt (s4Z : ℝ) := Real.sqrt_nonneg _
  rw [jwGroundEnergy, div_le_iff₀ (by norm_num : (0 : ℝ) < 2 * 10 ^ 18)]
  rcases jw_block_key r with ⟨hc0, hb1, hb2⟩ | ⟨hce, hub, hcb⟩ | ⟨hce, hsum, hsd⟩
  · -- uncoupled block: the eigenvalue equals one of the two diagonal entries
    rw [hc0] at hdet
    norm_num at hdet
    rcases hdet with hp | hp'
    · have hν : 10 ^ 18 * μ = (jwDiagZ r : ℝ) := by linarith [sub_eq_zero.mp hp]
      rcases hb1 with hneg | hsq
      · have ht : ((m4Z : ℤ) : ℝ) - 2 * ((jwDiagZ r : ℤ) : ℝ) ≤ 0 := by
          exact_mod_cast hneg
        nlinarith
      · have ht : (((m4Z : ℤ) : ℝ) - 2 * ((jwDiagZ r : ℤ) : ℝ)) ^ 2 ≤ ((s4Z : ℤ) : ℝ) := by
          exact_mod_cast hsq
        have hle := le_sqrt_of_sq_le ht
        nlinarith
    · have hν : 10 ^ 18 * μ = (jwDiagZ (pair16 r) : ℝ) := by linarith [sub_eq_zero.mp hp']
      rcases hb2 with hneg | hsq
      · have ht : ((m4Z : ℤ) : ℝ) - 2 * ((jwDiagZ (pair16 r) : ℤ) : ℝ) ≤ 0 := by
          exact_mod_cast hneg
        nlinarith
      · have ht : (((m4Z : ℤ) : ℝ) - 2 * ((jwDiagZ (pair16 r) : ℤ) : ℝ)) ^ 2
            ≤ ((s4Z : ℤ) : ℝ) := by
          exact_mod_cast hsq
        have hle := le_sqrt_of_sq_le ht
        nlinarith
  · -- the coupled block `{6, 9}`: its minimum stays above the global one
    rw [hce] at hdet
    have hsq69 : (2 * (10 ^ 18 * μ) - ((jwDiagZ r : ℝ) + (jwDiagZ (pair16 r) : ℝ))) ^ 2
        = ((jwDiagZ r : ℝ) - (jwDiagZ (pair16 r) : ℝ)) ^ 2 + 4 * (e4Z : ℝ) ^ 2 := by
      linear_combination 4 * hdet
    have hubR : ((jwDiagZ r : ℝ) - (jwDiagZ (pair16 r) : ℝ)) ^ 2 + 4 * (e4Z : ℝ) ^ 2
        ≤ (u0Z : ℝ) ^ 2 := by exact_mod_cast hub
    have hu0nn : (0 : ℝ) ≤ (u0Z : ℝ) := by
      have h' : (0 : ℤ) ≤ u0Z := by decide
      exact_mod_cast h'
    have hlow : ((jwDiagZ r : ℝ) + (jwDiagZ (pair16 r) : ℝ)) - (u0Z : ℝ)
        ≤ 2 * (10 ^ 18 * μ) := by
      nlinarith [hsq69, hubR, hu0nn, sq_nonneg (2 * (10 ^ 18 * μ)
        - ((jwDiagZ r : ℝ) + (jwDiagZ (pair16 r) : ℝ)) + (u0Z : ℝ))]
    have hcbR : (((m4Z : ℤ) : ℝ) - (((jwDiagZ r : ℤ) : ℝ) + ((jwDiagZ (pair16 r) : ℤ) : ℝ))
        + ((u0Z : ℤ) : ℝ)) ^ 2 ≤ ((s4Z : ℤ) : ℝ) := by exact_mod_cast hcb
    have hle := le_sqrt_of_sq_le hcbR
    nlinarith
  · -- the coupled block `{5, 10}` carrying the minimum itself
    rw [hce] at hdet
    have hsumR : (jwDiagZ r : ℝ) + (jwDiagZ (pair16 r) : ℝ) = (m4Z : ℝ) := by
      exact_mod_cast hsum
    have hsdR : ((jwDiagZ r : ℝ) - (jwDiagZ (pair16 r) : ℝ)) ^ 2 + 4 * (e4Z : ℝ) ^ 2
        = (s4Z : ℝ) := by exact_mod_cast hsd
    have hsq : (2 * (10 ^ 18 * μ) - (m4Z : ℝ)) ^ 2 = (s4Z : ℝ) := by
      linear_combination 4 * hdet + (4 * (10 ^ 18 * μ)
        - ((jwDiagZ r : ℝ) + (jwDiagZ (pair16 r) : ℝ)) - (m4Z : ℝ)) * hsumR + hsdR
    have := center_sub_sqrt_le hsq
    linarith

theorem parity_ground_le (μ : ℝ) (h : IsEigenvalue parityMatrix μ) :
    parityGroundEnergy ≤ μ := by
  obtain ⟨v, hv0, hveq⟩ := h
  have hex : ∃ r, v r ≠ 0 := by
    by_contra hall
    push_neg at hall
    exact hv0 (funext fun r => hall r)
  obtain ⟨r, hr⟩ := hex
  have h1 := hveq r
  have h2 := hveq (pair4 r)
  rw [parity_row] at h1 h2
  have hpp : pair4 (pair4 r) = r := by
    have h' : ∀ t : Fin 4, pair4 (pair4 t) = t := by decide
    exact h' r
  have hcp : parityCouplingZ (pair4 r) = parityCouplingZ r := by
    have h' : ∀ t : Fin 4, parityCouplingZ (pair4 t) = parityCouplingZ t := by decide
    exact h' r
  rw [hpp, hcp] at h2
  have h1' : (parityDiagZ r : ℝ) * v r + (parityCouplingZ r : ℝ) * v (pair4 r)
      = (10 ^ 18 * μ) * v r := by
    rw [div_eq_iff (by norm_num : (10 : ℝ) ^ 18 ≠ 0)] at h1
    linarith
  have h2' : (parityCouplingZ r : ℝ) * v r + (parityDiagZ (pair4 r) : ℝ) * v (pair4 r)
      = (10 ^ 18 * μ) * v (pair4 r) := by
    rw [div_eq_iff (by norm_num : (10 : ℝ) ^ 18 ≠ 0)] at h2
    linarith
  have hdet := block_det h1' h2' hr
  have hs2nn : (0 : ℝ) ≤ (s2Z : ℝ) := by
    have h' : (0 : ℤ) ≤ s2Z := by decide
    exact_mod_cast h'
  have hSnn : (0 : ℝ) ≤ Real.sqrt (s2Z : ℝ) := Real.sqrt_nonneg _
  rw [parityGroundEnergy, div_le_iff₀ (by norm_num : (0 : ℝ) < 2 * 10 ^ 18)]
  rcases parity_block_key r with ⟨hce, hub, hcb⟩ | ⟨hce, hsum, hsd⟩
  · rw [hce] at hdet
    have hsq03 : (2 * (10 ^ 18 * μ) - ((parityDiagZ r : ℝ) + (parityDiagZ (pair4 r) : ℝ))) ^ 2
        = ((parityDiagZ r : ℝ) - (parityDiagZ (pair4 r) : ℝ)) ^ 2 + 4 * (e2Z : ℝ) ^ 2 := by
      linear_combination 4 * hdet
    have hubR : ((parityDiagZ r : ℝ) - (parityDiagZ (pair4 r) : ℝ)) ^ 2 + 4 * (e2Z : ℝ) ^ 2
        ≤ (2 * (e2Z : ℝ)) ^ 2 := by exact_mod_cast hub
    have hu0nn : (0 : ℝ) ≤ 2 * (e2Z : ℝ) := by
      have h' : (0 : ℤ) ≤ 2 * e2Z := by decide
      exact_mod_cast h'
    have hlow : ((parityDiagZ r : ℝ) + (parityDiagZ (pair4 r) : ℝ)) - 2 * (e2Z : ℝ)
        ≤ 2 * (10 ^ 18 * μ) := by
      nlinarith [hsq03, hubR, hu0nn, sq_nonneg (2 * (10 ^ 18 * μ)
        - ((parityDiagZ r : ℝ) + (parityDiagZ (pair4 r) : ℝ)) + 2 * (e2Z : ℝ))]
    have hcbR : (((m2Z : ℤ) : ℝ) - (((parityDiagZ r : ℤ) : ℝ)
        + ((parityDiagZ (pair4 r) : ℤ) : ℝ)) + 2 * ((e2Z : ℤ) : ℝ)) ^ 2
        ≤ ((s2Z : ℤ) : ℝ) := by exact_mod_cast hcb
    have hle := le_sqrt_of_sq_le hcbR
    nlinarith
  · rw [hce] at hdet
    have hsumR : (parityDiagZ r : ℝ) + (parityDiagZ (pair4 r) : ℝ) = (m2Z : ℝ) := by
      exact_mod_cast hsum
    have hsdR : ((parityDiagZ r : ℝ) - (parityDiagZ (pair4 r) : ℝ)) ^ 2 + 4 * (e2Z : ℝ) ^ 2
        = (s2Z : ℝ) := by exact_mod_cast hsd
    have hsq : (2 * (10 ^ 18 * μ) - (m2Z : ℝ)) ^ 2 = (s2Z : ℝ) := by
      linear_combination 4 * hdet + (4 * (10 ^ 18 * μ)
        - ((parityDiagZ r : ℝ) + (parityDiagZ (pair4 r) : ℝ)) - (m2Z : ℝ)) * hsumR + hsdR
    have := center_sub_sqrt_le hsq
    linarith

/-- The recorded Jordan-Wigner operator attains its minimum eigenvalue at
`jwGroundEnergy`. -/
theorem jw_ground_isMin : IsMinEigenvalue jwMatrix jwGroundEnergy :=
  ⟨jw_ground_isEigen, jw_ground_le⟩

/-- The recorded parity-reduced operator attains its minimum eigenvalue at
`parityGroundEnergy`. -/
theorem parity_ground_isMin : IsMinEigenvalue parityMatrix parityGroundEnergy :=
  ⟨parity_ground_isEigen, parity_ground_le⟩

/-- The two recorded operators' minimum eigenvalues are not equal: the
Jordan-Wigner one is strictly smaller (by about `7.1e-16`), because the
recorded coefficients of the two printed operators carry independent
floating-point round-off. -/
theorem jwGround_lt_parityGround : jwGroundEnergy < parityGroundEnergy := by
  have hmono : Real.sqrt ((s2Z : ℤ) : ℝ) ≤ Real.sqrt ((s4Z : ℤ) : ℝ) := by
    apply Real.sqrt_le_sqrt
    exact_mod_cast (by decide : s2Z ≤ s4Z)
  have hm : (m4Z : ℝ) = (m2Z : ℝ) - 1020 := by
    exact_mod_cast (by decide : m4Z = m2Z - 1020)
  unfold jwGroundEnergy parityGroundEnergy
  rw [div_lt_div_iff_of_pos_right (by norm_num : (0 : ℝ) < 2 * 10 ^ 18)]
  linarith

/-- The two minimum eigenvalues agree to better than `1e-15`. -/
theorem jwGround_near_parityGround :
    |jwGroundEnergy - parityGroundEnergy| ≤ 1 / 10 ^ 15 := by
  have hs4nn : (0 : ℝ) ≤ (s4Z : ℝ) := by
    have h' : (0 : ℤ) ≤ s4Z := by decide
    exact_mod_cast h'
  have hs2nn : (0 : ℝ) ≤ (s2Z : ℝ) := by
    have h' : (0 : ℤ) ≤ s2Z := by decide
    exact_mod_cast h'
  have hS4sq : Real.sqrt ((s4Z : ℤ) : ℝ) ^ 2 = ((s4Z : ℤ) : ℝ) := Real.sq_sqrt hs4nn
  have hS2sq : Real.sqrt ((s2Z : ℤ) : ℝ) ^ 2 = ((s2Z : ℤ) : ℝ) := Real.sq_sqrt hs2nn
  have hmono : Real.sqrt ((s2Z : ℤ) : ℝ) ≤ Real.sqrt ((s4Z : ℤ) : ℝ) := by
    apply Real.sqrt_le_sqrt
    exact_mod_cast (by decide : s2Z ≤ s4Z)
  have hS4ge : (16 * 10 ^ 17 : ℝ) ≤ Real.sqrt ((s4Z : ℤ) : ℝ) := by
    apply le_sqrt_of_sq_le
    exact_mod_cast (by decide : ((16 * 10 ^ 17 : ℤ)) ^ 2 ≤ s4Z)
  have hS2ge : (16 * 10 ^ 17 : ℝ) ≤ Real.sqrt ((s2Z : ℤ) : ℝ) := by
    apply le_sqrt_of_sq_le
    exact_mod_cast (by decide : ((16 * 10 ^ 17 : ℤ)) ^ 2 ≤ s2Z)
  have hprod : (Real.sqrt ((s4Z : ℤ) : ℝ) - Real.sqrt ((s2Z : ℤ) : ℝ))
      * (Real.sqrt ((s4Z : ℤ) : ℝ) + Real.sqrt ((s2Z : ℤ) : ℝ))
      = ((s4Z : ℤ) : ℝ) - ((s2Z : ℤ) : ℝ) := by
    linear_combination hS4sq - hS2sq
  have hD : ((s4Z : ℤ) : ℝ) - ((s2Z : ℤ) : ℝ) = 1331279949079990243024 := by
    exact_mod_cast (by decide : s4Z - s2Z = 1331279949079990243024)
  have hgap : Real.sqrt ((s4Z : ℤ) : ℝ) - Real.sqrt ((s2Z : ℤ) : ℝ) ≤ 980 := by
    nlinarith [hprod, hmono, hS4ge, hS2ge, hD]
  have hm : (m4Z : ℝ) = (m2Z : ℝ) - 1020 := by
    exact_mod_cast (by decide : m4Z = m2Z - 1020)
  have hdiff : jwGroundEnergy - parityGroundEnergy
      = (((m4Z : ℝ) - (m2Z : ℝ)) - (Real.sqrt ((s4Z : ℤ) : ℝ)
          - Real.sqrt ((s2Z : ℤ) : ℝ))) / (2 * 10 ^ 18) := by
    unfold jwGroundEnergy parityGroundEnergy
    ring
  rw [abs_le]
  constructor
  · rw [hdiff]
    calc (-(1 / 10 ^ 15) : ℝ) = (-2000) / (2 * 10 ^ 18) := by norm_num
      _ ≤ (((m4Z : ℝ) - (m2Z : ℝ)) - (Real.sqrt ((s4Z : ℤ) : ℝ)
            - Real.sqrt ((s2Z : ℤ) : ℝ))) / (2 * 10 ^ 18) := by
          gcongr
          linarith
  · rw [hdiff]
    calc (((m4Z : ℝ) - (m2Z : ℝ)) - (Real.sqrt ((s4Z : ℤ) : ℝ)
          - Real.sqrt ((s2Z : ℤ) : ℝ))) / (2 * 10 ^ 18)
        ≤ (0 : ℝ) / (2 * 10 ^ 18) := by
          gcongr
          linarith
      _ ≤ 1 / 10 ^ 15 := by norm_num

/-- C1, counterexample: the two pipelines do not produce literally the same
ground-state energy — the recorded totals differ (at the tenth decimal). -/
theorem claim_C1_counterexample : vqeTotalGSE ≠ numpyTotalGSE := by
  norm_num [vqeTotalGSE, numpyTotalGSE]

/-- C1 (amended): the recorded VQE/UCC and NumPy total ground-state energies
are each the sum of their recorded electronic and nuclear-repulsion parts,
agree with each other to within `1e-9` Hartree, and both reproduce the
illustrative value `-1.1373` Hartree when rounded to four decimals. -/
theorem claim_C1_amended :
    vqeTotalGSE = vqeElectronicGSE + vqeNuclearRepulsion
      ∧ numpyTotalGSE = numpyElectronicGSE + numpyNuclearRepulsion
      ∧ |vqeTotalGSE - numpyTotalGSE| ≤ 1 / 10 ^ 9
      ∧ round (vqeTotalGSE * 10 ^ 4) = -11373
      ∧ round (numpyTotalGSE * 10 ^ 4) = -11373 := by
  refine ⟨?_, ?_, ?_, ?_, ?_⟩
  · norm_num [vqeTotalGSE, vqeElectronicGSE, vqeNuclearRepulsion]
  · norm_num [numpyTotalGSE, numpyElectronicGSE, numpyNuclearRepulsion]
  · rw [abs_le]; constructor <;> norm_num [vqeTotalGSE, numpyTotalGSE]
  · norm_num [vqeTotalGSE, round_eq]
  · norm_num [numpyTotalGSE, round_eq]

/-- C2, counterexample: in the filtered vibrational run the recorded modal
occupations are `0.9999999999999999`, which is not equal to `1`. -/
theorem claim_C2_counterexample :
    filteredOccupations.head? = some 0.9999999999999999
      ∧ (0.9999999999999999 : ℚ) ≠ 1 :=
  ⟨rfl, by norm_num⟩

/-- C2 (amended): in the recorded filter-function example, the unfiltered run
returns the vacuum state — energy within `1e-10` of zero and every modal
occupation exactly `0.0` — while the filtered run returns a state of strictly
larger energy whose modal occupations all equal `1` up to floating-point
round-off (within `1e-15`). -/
theorem claim_C2_amended :
    |unfilteredVibEnergy| ≤ 1 / 10 ^ 10
      ∧ (∀ o ∈ unfilteredOccupations, o = 0)
      ∧ unfilteredVibEnergy < filteredVibEnergy
      ∧ (∀ o ∈ filteredOccupations, |o - 1| ≤ 1 / 10 ^ 15) := by
  refine ⟨?_, ?_, ?_, ?_⟩
  · rw [abs_le]; constructor <;> norm_num [unfilteredVibEnergy]
  · intro o ho
    simp only [unfilteredOccupations, List.mem_cons, List.not_mem_nil, or_false] at ho
    rcases ho with h | h | h | h <;> norm_num [h]
  · norm_num [unfilteredVibEnergy, filteredVibEnergy]
  · intro o ho
    simp only [filteredOccupations, List.mem_cons, List.not_mem_nil, or_false] at ho
    rcases ho with h | h | h | h <;>
      (rw [h, abs_le]; constructor <;> norm_num)

/-- C2, witness: the amended statement applied to the first recorded filtered
occupation. -/
theorem claim_C2_witness : |(0.9999999999999999 : ℚ) - 1| ≤ 1 / 10 ^ 15 :=
  claim_C2_amended.2.2.2 0.9999999999999999 (by simp [filteredOccupations])

/-- C3, counterexample: the recorded Jordan-Wigner operator and the recorded
two-qubit-reduced parity operator both have well-defined minimum eigenvalues,
and those minimum eigenvalues are not equal (the Jordan-Wigner one is smaller
by about `7.1e-16`). -/
theorem claim_C3_counterexample :
    IsMinEigenvalue jwMatrix jwGroundEnergy
      ∧ IsMinEigenvalue parityMatrix parityGroundEnergy
      ∧ jwGroundEnergy ≠ parityGroundEnergy :=
  ⟨jw_ground_isMin, parity_ground_isMin, ne_of_lt jwGround_lt_parityGround⟩

/-- C3 (amended): the recorded Jordan-Wigner operator acts on 4 qubits (every
Pauli string has length 4), the recorded parity operator with two-qubit
reduction acts on exactly 2 qubits, and the reduction is precision-preserving
up to the floating-point round-off of the recorded coefficients: the two
minimum eigenvalues agree to within `1e-15` (though not exactly). -/
theorem claim_C3_amended :
    (jwTerms.all (fun t => t.paulis.length == 4) = true)
      ∧ (parityTerms.all (fun t => t.paulis.length == 2) = true)
      ∧ IsMinEigenvalue jwMatrix jwGroundEnergy
      ∧ IsMinEigenvalue parityMatrix parityGroundEnergy
      ∧ |jwGroundEnergy - parityGroundEnergy| ≤ 1 / 10 ^ 15 :=
  ⟨by decide, by decide, jw_ground_isMin, parity_ground_isMin,
    jwGround_near_parityGround⟩

theorem foldl_min_le_seed (es : List ℝ) (e : ℝ) : es.foldl min e ≤ e := by
  induction es generalizing e with
  | nil => exact le_refl e
  | cons a t ih =>
      calc (a :: t).foldl min e = t.foldl min (min e a) := rfl
        _ ≤ min e a := ih (min e a)
        _ ≤ e := min_le_left e a

theorem foldl_min_le_mem (es : List ℝ) (e x : ℝ) (hx : x ∈ es) :
    es.foldl min e ≤ x := by
  induction es generalizing e with
  | nil => cases hx
  | cons a t ih =>
      rcases List.mem_cons.mp hx with h | h
      · subst h
        calc (x :: t).foldl min e = t.foldl min (min e x) := rfl
          _ ≤ min e x := foldl_min_le_seed t (min e x)
          _ ≤ x := min_le_right e x
      · exact ih (min e a) h

theorem foldl_min_mem (es : List ℝ) (e : ℝ) : es.foldl min e ∈ e :: es := by
  induction es generalizing e with
  | nil => exact List.mem_singleton.mpr rfl
  | cons a t ih =>
      have h := ih (min e a)
      rcases List.mem_cons.mp h with h1 | h1
      · rcases min_cases e a with ⟨hm, _⟩ | ⟨hm, _⟩
        · exact List.mem_cons.mpr (Or.inl (h1.trans hm))
        · refine List.mem_cons.mpr (Or.inr ?_)
          exact List.mem_cons.mpr (Or.inl (h1.trans hm))
      · exact List.mem_cons.mpr (Or.inr (List.mem_cons.mpr (Or.inr h1)))

/-- C4: the value returned by the (spec-modelled) NumPy minimum eigensolver
is an eigenvalue and is `≤` every eigenvalue of its input spectrum; moreover,
for the concrete qubit-mapped H2 Hamiltonian recorded in the tutorial, the
energy `jwGroundEnergy` is an eigenvalue of the Hamiltonian and bounds every
eigenvalue from below. -/
theorem claim_C4 :
    (∀ eigenvalues : List ℝ, eigenvalues ≠ [] →
        numpyMinimumEigensolverValue eigenvalues ∈ eigenvalues
          ∧ ∀ E ∈ eigenvalues, numpyMinimumEigensolverValue eigenvalues ≤ E)
      ∧ IsEigenvalue jwMatrix jwGroundEnergy
      ∧ (∀ μ : ℝ, IsEigenvalue jwMatrix μ → jwGroundEnergy ≤ μ) := by
  refine ⟨?_, jw_ground_isEigen, jw_ground_le⟩
  intro evs hne
  match evs with
  | [] => exact absurd rfl hne
  | e :: es =>
      constructor
      · exact foldl_min_mem es e
      · intro E hE
        rcases List.mem_cons.mp hE with h | h
        · subst h
          exact foldl_min_le_seed es E
        · exact foldl_min_le_mem es e E h

/-- C4, witness: the modelled solver applied to a concrete spectrum. -/
theorem claim_C4_witness :
    numpyMinimumEigensolverValue [(2 : ℝ), -3] ≤ 2 :=
  (claim_C4.1 [(2 : ℝ), -3] (by simp)).2 2 (by simp)

/-- C5: the README's `ansatz.compose(init_state, front=True)` call is a bare
expression statement — it names only `compose` and reads `ansatz` and
`init_state`, its return value is discarded — and it leaves the `TwoLocal`
circuit bound to `ansatz` unchanged: the binding after the statement equals
the binding before it, and the `ansatz` value seen by the subsequent `VQE`
construction (and by the end of the program) is still the value bound by the
`TwoLocal` assignment. -/
theorem claim_C5 :
    (readmeProgram.map isExprStmt).getD 19 false = true
      ∧ (readmeProgram.map stmtCallNames).getD 19 [] = ["compose"]
      ∧ (readmeProgram.map stmtReads).getD 19 [] = ["ansatz", "init_state"]
      ∧ lookupVar (runProg (readmeProgram.take 20) initState).env "ansatz"
          = lookupVar (runProg (readmeProgram.take 19) initState).env "ansatz"
      ∧ lookupVar (runProg readmeProgram initState).env "ansatz"
          = lookupVar (runProg (readmeProgram.take 19) initState).env "ansatz" :=
  ⟨by decide, by decide, by decide, rfl, rfl⟩

/-- C6, counterexample: the README example (the first of the repository's
example programs) does not follow the stated five-phase call sequence in
order — it constructs the VQE's classical optimizer (eigensolver phase)
before the qubit converter. -/
theorem claim_C6_counterexample :
    repoExamplePrograms.head? = some readmeProgram
      ∧ phasesSorted (phasesOf readmeProgram) = false :=
  ⟨rfl, by decide⟩

/-- C6 (amended): in every example no statement reads a name bound only by a
later statement (def-before-use, which also forces every result report to be
printed after the solve call producing it); in each example the driver is
constructed before the problem and the problem before the first
qubit-converter construction, and in the ground-state tutorial the converter
also precedes all eigensolver construction.  The full global phase ordering
fails only because solver ingredients (the classical optimizer) may be
constructed before the converter and intermediate reports are printed between
phases. -/
theorem claim_C6_amended :
    defBeforeUse readmeProgram = true
      ∧ defBeforeUse electronicProgram = true
      ∧ defBeforeUse groundStateProgram = true
      ∧ firstIdx readmeProgram .driver < firstIdx readmeProgram .problem
      ∧ firstIdx readmeProgram .problem < firstIdx readmeProgram .converter
      ∧ firstIdx electronicProgram .driver < firstIdx electronicProgram .problem
      ∧ firstIdx electronicProgram .problem < firstIdx electronicProgram .converter
      ∧ firstIdx groundStateProgram .driver < firstIdx groundStateProgram .problem
      ∧ firstIdx groundStateProgram .problem < firstIdx groundStateProgram .converter
      ∧ firstIdx groundStateProgram .converter < firstIdx groundStateProgram .solver :=
  ⟨by decide, by decide, by decide, by decide, by decide, by decide, by decide,
   by decide, by decide, by decide⟩

/-- C7: no example contains a `raise` statement or a `try`/`except` block,
and none contains any loop or other block construct that could implement
retry or recovery logic; every statement is an import, an assignment of a
single framework call, a bare expression statement, a print, or an IPython
magic — so any exception raised inside a framework call propagates
unchanged. -/
theorem claim_C7 :
    repoExamplePrograms.all (fun p => p.all (fun s => !(isErrorHandling s))) = true
      ∧ repoExamplePrograms.all
          (fun p => p.all (fun s => !(isLoop s || isBlockStmt s))) = true :=
  ⟨by decide, by decide⟩

/-- C8: no example defines an async function, and no statement invokes or
imports any concurrency, scheduling or resource-management primitive;
moreover the semantics of the transcribed programs is strictly sequential —
running a concatenation runs the first part to completion and only then the
second. -/
theorem claim_C8 :
    (repoExamplePrograms.all (fun p => p.all (fun s =>
        !(isAsyncStmt s)
          && (stmtCallNames s).all (fun n => !(concurrencyPrimitives.contains n)))) = true)
      ∧ ∀ (p q : List PStmt) (st : PState),
          runProg (p ++ q) st = runProg q (runProg p st) := by
  constructor
  · decide
  · intro p q st
    unfold runProg
    rw [List.foldl_append]

/-- C8, witness: sequential composition at a concrete split of the README
program. -/
theorem claim_C8_witness :
    runProg (readmeProgram.take 3 ++ readmeProgram.drop 3) initState
      = runProg (readmeProgram.drop 3) (runProg (readmeProgram.take 3) initState) :=
  claim_C8.2 (readmeProgram.take 3) (readmeProgram.drop 3) initState

/-- C9: in the filter-function cell, statement 35 binds the misspelt name
`qubit_covnerter` to `QubitConverter(DirectMapper())`; that name is never
read anywhere in the program, both `GroundStateEigensolver` constructions
read the `qubit_converter` bound to the Jordan-Wigner converter of cell 21,
and deleting statement 35 leaves every printed result unchanged. -/
theorem claim_C9 :
    (groundStateProgram.map stmtWrites).getD 35 [] = ["qubit_covnerter"]
      ∧ (groundStateProgram.map stmtCallNames).getD 35 []
          = ["QubitConverter", "DirectMapper"]
      ∧ groundStateProgram.all
          (fun s => !((stmtReads s).contains "qubit_covnerter")) = true
      ∧ ((groundStateProgram.map stmtReads).getD 38 []).contains "qubit_converter" = true
      ∧ ((groundStateProgram.map stmtReads).getD 40 []).contains "qubit_converter" = true
      ∧ lookupVar (runProg groundStateProgram initState).env "qubit_converter"
          = Val.obj "QubitConverter" (.cons (.obj "JordanWignerMapper" .nil) .nil)
      ∧ (runProg (groundStateProgram.eraseIdx 35) initState).output
          = (runProg groundStateProgram initState).output :=
  ⟨by decide, by decide, by decide, by decide, by decide, rfl, rfl⟩

/-- C10: the list returned by `second_q_ops()` is non-empty, so the index
access `second_q_op[0]` performed by both examples is in bounds, and it
returns the recorded 14-term electronic Hamiltonian. -/
theorem claim_C10 :
    0 < secondQOps.length
      ∧ secondQOps[0]? = some h2FermionicHamiltonian
      ∧ h2FermionicHamiltonian.length = 14 :=
  ⟨Nat.succ_pos 0, rfl, rfl⟩
